import Mathlib

/-!
Verification of the tama chat TUI core: the session state machine and
streaming-response pipeline.

The development shallowly embeds the Bubble Tea model-view-update core of the
program (`internal/tui`: the `Model` struct, its `Update` function, and the
message construction inside `sendChatRequestCmd`).  Pure Go functions become
Lean functions; the single-threaded event loop becomes an explicit step
function `update : Nat -> Model -> Msg -> Model × Cmd` (the extra `Nat` is the
wall-clock instant at which the event is processed, making the `time.Now()` /
`time.Since(...)` effects explicit).  External collaborators that the spec
excludes - terminal rendering, the third-party textarea/viewport components,
on-disk persistence of the last-used model name, the HTTP transport itself -
are abstracted: only the fields of the third-party components that the core
reads or writes (the textarea's focus flag and text value) are kept, and the
component update calls at the bottom of `Update` leave the modelled state
unchanged.
-/

namespace Tama

/-- Interaction mode, from `model.go`: `PromptMode` (compose) and `ReadMode`
(review). -/
inductive Mode where
  | promptMode
  | readMode
  deriving DecidableEq, Repr

/-- One request/response exchange, from `model.go` (`MessagePair`).  The Go
`time.Duration` is embedded as a `Nat` count of clock units. -/
structure MessagePair where
  request : String
  response : String
  duration : Nat
  cancelled : Bool
  deriving DecidableEq, Repr

/-- One outbound chat message, from `model.go` (`OllamaMessage`). -/
structure OllamaMessage where
  role : String
  content : String
  deriving DecidableEq, Repr

/-- Character class of Go's `unicode.IsSpace` restricted to the Latin-1 code
points it names explicitly (\t, \n, vertical tab, form feed, \r, space,
U+0085, U+00A0); higher Unicode space code points are irrelevant to any claim
and omitted. -/
def goIsSpace (c : Char) : Bool :=
  c = ' ' || c = '\t' || c = '\n' || c = '\r' || c.toNat = 11 || c.toNat = 12 ||
    c.toNat = 133 || c.toNat = 160

/-- Drop leading and trailing whitespace from a character list. -/
def trimData (l : List Char) : List Char :=
  ((l.dropWhile goIsSpace).reverse.dropWhile goIsSpace).reverse

/-- Model of Go's `strings.TrimSpace`: removes leading and trailing
whitespace. -/
def goTrimSpace (s : String) : String :=
  String.mk (trimData s.data)

/-- The session/application state, from `model.go` (`Model`), restricted to
the fields the core reads or writes.  `textFocused`/`textValue` stand for the
externally-owned textarea's focus flag and contents; `hasCancelFn` records
whether `cancelCurrentRequestFn` is non-nil; purely visual fields (viewport,
renderer, window size, timers' start instants other than `requestStart`) are
omitted because no transition of the core depends on them. -/
structure Model where
  mode : Mode
  textFocused : Bool
  textValue : String
  messagePairs : List MessagePair
  currentPairIndex : Nat
  responseTargetIndex : Nat
  currentModel : String
  modelIsLoaded : Bool
  err : Option String
  requestStart : Nat
  isWaiting : Bool
  chatRequested : Bool
  loadingModel : Bool
  responseLines : List String
  streamBuffer : String
  lastKeyWasG : Bool
  hasCancelFn : Bool
  deriving DecidableEq, Repr

/-- Commands returned by `Update` to the Bubble Tea runtime.  `quit` is
`tea.Quit` (terminates the process); `sendChatRequest` carries the message
pair snapshot handed to `sendChatRequestCmd`; `batch` is `tea.Batch`.
Commands produced by the external textarea/viewport components are dropped
(they never touch the modelled state), so branches that fall through to the
component update return `Cmd.none`. -/
inductive Cmd where
  | none
  | quit
  | tick
  | checkModelStatus (model : String)
  | sendChatRequest (pairs : List MessagePair) (model : String)
  | batch (cmds : List Cmd)
  deriving Repr

/-- Events consumed by `Update`.  Key events carry single runes (the only form
the handlers inspect); `responseLine`/`responseComplete`/`errorEvent` are the
dispatcher's partial, terminal and failure events; `windowSize` is modelled as
a no-op because it only resizes the external layout components. -/
inductive Msg where
  | focusGained
  | focusLost
  | keyCtrlC
  | keyEsc
  | keyEnter
  | keyRune (c : Char)
  | tick
  | responseLine (s : String)
  | responseComplete (s : String)
  | modelSelected (model : String)
  | modelLoaded (model : String)
  | modelStatus (loaded : Bool)
  | setSendFunc
  | errorEvent (e : String)
  | windowSize (w h : Nat)
  deriving DecidableEq, Repr

/-- Replace the element at index `i` (no-op when out of range), mirroring the
guarded in-place slice assignments `m.MessagePairs[i].Field = v` in
`update.go`. -/
def modifyAt (l : List MessagePair) (i : Nat) (f : MessagePair → MessagePair) :
    List MessagePair :=
  match l[i]? with
  | some p => l.set i (f p)
  | none => l

/-- The message-list construction at the top of `sendChatRequestCmd`
(`update.go`): walk the pairs in order, skip cancelled ones, emit a "user"
entry for each request and an "assistant" entry for each non-empty
response. -/
def buildHistory : List MessagePair → List OllamaMessage
  | [] => []
  | p :: rest =>
    if p.cancelled then buildHistory rest
    else
      { role := "user", content := p.request } ::
        (if p.response ≠ "" then
          { role := "assistant", content := p.response } :: buildHistory rest
        else buildHistory rest)

/-- The streaming read loop of `sendChatRequestCmd`: each parsed chunk whose
`message.content` is non-empty is appended to the running accumulator
`fullResponse`, and after every chunk a `ResponseLineMsg` carrying the full
accumulator is sent.  `streamLoop acc chunks` returns the list of payloads
sent, in order, starting from accumulator `acc`. -/
def streamLoop (acc : String) : List String → List String
  | [] => []
  | c :: rest =>
    let acc' := if c ≠ "" then acc ++ c else acc
    acc' :: streamLoop acc' rest

/-- Payloads of the partial events emitted for a given sequence of chunk
contents (accumulator starts empty, as `fullResponse` does). -/
def emittedPartials (chunks : List String) : List String :=
  streamLoop "" chunks

/-- Final value of the `fullResponse` accumulator after consuming the given
chunk contents, per the same guarded append. -/
def accumulate (chunks : List String) : String :=
  chunks.foldl (fun acc c => if c ≠ "" then acc ++ c else acc) ""

/-- The `ctx.Done()` branch of `sendChatRequestCmd`: a cancelled dispatch
resolves by returning `ResponseCompleteMsg(fullResponse.String())`, the event
carrying whatever text had accumulated. -/
def dispatchCancelResolve (accumulated : String) : Msg :=
  Msg.responseComplete accumulated

/-- The connection-failure branches of `sendChatRequestCmd`: a transport error
or a non-success HTTP status resolves the dispatch with an `errorMsg`. -/
def dispatchFailure (cause : String) : Msg :=
  Msg.errorEvent cause

/-- Initial state, from `InitialModel` in `model.go` (the persisted last-used
model name is an external collaborator; its default is the constant
`defaultModel`). -/
def initialModel : Model :=
  { mode := Mode.promptMode
    textFocused := true
    textValue := ""
    messagePairs := []
    currentPairIndex := 0
    responseTargetIndex := 0
    currentModel := "gpt-oss:20b"
    modelIsLoaded := false
    err := none
    requestStart := 0
    isWaiting := false
    chatRequested := false
    loadingModel := false
    responseLines := []
    streamBuffer := ""
    lastKeyWasG := false
    hasCancelFn := false }

/-- The event-loop step: a faithful translation of `Model.Update` in
`update.go`, case by case over the modelled messages.  `now` is the clock
instant at which the event is processed.  Branches that in Go fall through to
the mode-conditional textarea/viewport component update leave the modelled
state unchanged and return `Cmd.none` (those components are external
collaborators). -/
def update (now : Nat) (m : Model) (msg : Msg) : Model × Cmd :=
  match msg with
  | Msg.focusGained => ({ m with textFocused := true }, Cmd.none)
  | Msg.focusLost => ({ m with textFocused := false }, Cmd.none)
  | Msg.keyCtrlC =>
    -- If waiting for a response, cancel it instead of quitting.
    if m.isWaiting || m.chatRequested then
      let pairs :=
        if 0 < m.messagePairs.length ∧ m.currentPairIndex < m.messagePairs.length then
          modifyAt m.messagePairs m.currentPairIndex (fun p => { p with cancelled := true })
        else m.messagePairs
      ({ m with
          isWaiting := false
          chatRequested := false
          hasCancelFn := false
          messagePairs := pairs },
        Cmd.none)
    else (m, Cmd.quit)
  | Msg.keyEsc =>
    if m.mode = Mode.promptMode then
      ({ m with mode := Mode.readMode, textFocused := false }, Cmd.none)
    else (m, Cmd.none)
  | Msg.keyRune c =>
    if m.mode = Mode.readMode then
      if c = 'i' then
        -- Don't allow entering prompt mode while waiting for a response.
        if m.isWaiting || m.chatRequested then (m, Cmd.none)
        else
          ({ m with mode := Mode.promptMode, textFocused := true, lastKeyWasG := false },
            Cmd.none)
      else if c = 'G' then
        -- Viewport GotoBottom is external.
        ({ m with lastKeyWasG := false }, Cmd.none)
      else if c = 'g' then
        if m.lastKeyWasG then ({ m with lastKeyWasG := false }, Cmd.none)
        else ({ m with lastKeyWasG := true }, Cmd.none)
      else
        -- Any other rune resets the pending 'g', then 'K'/'J' navigate.
        let m1 := { m with lastKeyWasG := false }
        if c = 'K' then
          (if 0 < m1.currentPairIndex then
            { m1 with currentPairIndex := m1.currentPairIndex - 1 }
          else m1, Cmd.none)
        else if c = 'J' then
          (if m1.currentPairIndex < m1.messagePairs.length - 1 then
            { m1 with currentPairIndex := m1.currentPairIndex + 1 }
          else m1, Cmd.none)
        else (m1, Cmd.none)
    else
      -- In prompt mode runes go to the external textarea component.
      (m, Cmd.none)
  | Msg.keyEnter =>
    if !m.textFocused then ({ m with textFocused := true }, Cmd.none)
    else
      let input := goTrimSpace m.textValue
      if input = "" then (m, Cmd.none)
      else if input = "clear" then
        ({ m with messagePairs := [], currentPairIndex := 0, textValue := "" }, Cmd.none)
      else if input = "exit" ∨ input = "quit" then (m, Cmd.quit)
      else
        let pairs :=
          m.messagePairs ++
            [{ request := input, response := "", duration := 0, cancelled := false }]
        ({ m with
            messagePairs := pairs
            currentPairIndex := pairs.length - 1
            responseTargetIndex := pairs.length - 1
            textValue := ""
            loadingModel := true
            modelIsLoaded := false
            requestStart := now
            isWaiting := false
            chatRequested := true
            responseLines := []
            streamBuffer := ""
            mode := Mode.readMode
            textFocused := false
            hasCancelFn := true },
          Cmd.batch
            [Cmd.checkModelStatus m.currentModel,
              Cmd.sendChatRequest pairs m.currentModel,
              Cmd.tick])
  | Msg.tick =>
    let tickCmds :=
      (if m.isWaiting || m.loadingModel then [Cmd.tick] else []) ++
        (if m.loadingModel then [Cmd.checkModelStatus m.currentModel] else [])
    if tickCmds.length ≠ 0 then (m, Cmd.batch tickCmds) else (m, Cmd.none)
  | Msg.responseLine s => ({ m with responseLines := [s] }, Cmd.none)
  | Msg.responseComplete s =>
    let r := goTrimSpace s
    let pairs :=
      if 0 < m.messagePairs.length ∧ m.responseTargetIndex < m.messagePairs.length then
        modifyAt m.messagePairs m.responseTargetIndex
          (fun p => { p with response := r, duration := now - m.requestStart })
      else m.messagePairs
    ({ m with
        isWaiting := false
        chatRequested := false
        messagePairs := pairs
        mode := Mode.readMode
        textFocused := false },
      Cmd.none)
  | Msg.modelSelected name => ({ m with currentModel := name }, Cmd.none)
  | Msg.modelLoaded name =>
    ({ m with modelIsLoaded := true, currentModel := name }, Cmd.none)
  | Msg.modelStatus loaded =>
    if loaded then
      if m.chatRequested then
        ({ m with modelIsLoaded := true, loadingModel := false, isWaiting := true },
          Cmd.none)
      else ({ m with modelIsLoaded := true, loadingModel := false }, Cmd.none)
    else ({ m with modelIsLoaded := false }, Cmd.none)
  | Msg.setSendFunc => (m, Cmd.none)
  | Msg.errorEvent e =>
    ({ m with err := some e, isWaiting := false, loadingModel := false }, Cmd.none)
  | Msg.windowSize _ _ => (m, Cmd.none)

/-! ### Helper lemmas -/

/-- The guarded in-place update preserves the list length. -/
@[simp] theorem modifyAt_length (l : List MessagePair) (i : Nat) (f : MessagePair → MessagePair) :
    (modifyAt l i f).length = l.length := by
  unfold modifyAt
  cases hq : l[i]? with
  | none => rfl
  | some p => exact List.length_set l i (f p)

/-- Setting an index to the value already stored there is the identity. -/
theorem set_self_of_getElem? {α : Type} (l : List α) (i : Nat) (a : α) (h : l[i]? = some a) :
    l.set i a = l := by
  induction l generalizing i with
  | nil => rfl
  | cons b t ih =>
    cases i with
    | zero =>
      simp only [List.getElem?_cons_zero, Option.some.injEq] at h
      simp [List.set, h]
    | succ n =>
      simp only [List.getElem?_cons_succ] at h
      simp [List.set, ih n h]

/-- A `modifyAt` whose function leaves `response` unchanged leaves the
projection of the list to responses unchanged. -/
theorem modifyAt_map_response (l : List MessagePair) (i : Nat) (f : MessagePair → MessagePair)
    (hf : ∀ p, (f p).response = p.response) :
    (modifyAt l i f).map (fun p => p.response) = l.map (fun p => p.response) := by
  unfold modifyAt
  cases hq : l[i]? with
  | none => rfl
  | some p =>
    rw [List.map_set, hf]
    exact set_self_of_getElem? _ i _ (by simp [List.getElem?_map, hq])

/-- Processing `ResponseCompleteMsg` with the target in range writes the
trimmed text and the elapsed duration into the targeted pair. -/
theorem finalize_in_range (now : Nat) (m : Model) (s : String) (p : MessagePair)
    (hp : m.messagePairs[m.responseTargetIndex]? = some p) :
    (update now m (Msg.responseComplete s)).1.messagePairs =
      m.messagePairs.set m.responseTargetIndex
        { p with response := goTrimSpace s, duration := now - m.requestStart } := by
  have hlt : m.responseTargetIndex < m.messagePairs.length :=
    (List.getElem?_eq_some.mp hp).1
  simp only [update]
  rw [if_pos ⟨Nat.lt_of_le_of_lt (Nat.zero_le _) hlt, hlt⟩]
  simp [modifyAt, hp]

/-- Processing `ResponseCompleteMsg` with the target out of range leaves the
turn store untouched. -/
theorem finalize_out_of_range (now : Nat) (m : Model) (s : String)
    (hge : m.messagePairs.length ≤ m.responseTargetIndex) :
    (update now m (Msg.responseComplete s)).1.messagePairs = m.messagePairs := by
  simp only [update]
  rw [if_neg (by rintro ⟨h1, h2⟩; omega)]

/-! ### The claims -/

/-- C7: `buildHistory` walks the turns in order, excludes every turn with
`cancelled=true`, and for each remaining turn emits a "user" entry for the
request followed by an "assistant" entry exactly when the response is
non-empty.  Stated as an exact characterization, so it holds for every turn
list, whatever interleaving of submissions and cancellations produced it. -/
theorem c7_buildHistory_skips_cancelled (pairs : List MessagePair) :
    buildHistory pairs =
      (pairs.filter (fun p => !p.cancelled)).flatMap
        (fun p =>
          { role := "user", content := p.request } ::
            (if p.response = "" then []
             else [({ role := "assistant", content := p.response } : OllamaMessage)])) := by
  induction pairs with
  | nil => rfl
  | cons p rest ih =>
    by_cases hc : p.cancelled = true
    · simp [buildHistory, hc, ih]
    · by_cases hr : p.response = ""
      · simp [buildHistory, hc, hr, ih]
      · simp [buildHistory, hc, hr, ih]

/-- C8: in Review mode with a dispatch active (`IsWaiting || ChatRequested`),
the enter-compose key 'i' is rejected with no transition at all: the state is
returned unchanged and no command is issued, so the machine never enters
Compose while a dispatch is active. -/
theorem c8_compose_guarded_while_active (now : Nat) (m : Model)
    (hmode : m.mode = Mode.readMode)
    (hactive : (m.isWaiting || m.chatRequested) = true) :
    update now m (Msg.keyRune 'i') = (m, Cmd.none) := by
  simp [update, hmode, hactive]

/-- C8 witness: a concrete mid-dispatch state in Review mode where 'i' is
rejected. -/
theorem c8_compose_guarded_while_active_witness :
    update 0
        { initialModel with
            mode := Mode.readMode
            textFocused := false
            messagePairs := [{ request := "q", response := "", duration := 0, cancelled := false }]
            chatRequested := true
            hasCancelFn := true }
        (Msg.keyRune 'i') =
      ({ initialModel with
          mode := Mode.readMode
          textFocused := false
          messagePairs := [{ request := "q", response := "", duration := 0, cancelled := false }]
          chatRequested := true
          hasCancelFn := true },
        Cmd.none) :=
  c8_compose_guarded_while_active 0 _ rfl rfl

/-- C3: partial events do not touch the turn store; processing
`Complete(text)` writes the trimmed text and the elapsed duration into the
turn at `targetIndex` when that index is in range, and is a no-op on the turn
store when it is out of range (session reset mid-flight). -/
theorem c3_complete_finalizes_trimmed (now : Nat) (m : Model) (s t : String) :
    ((update now m (Msg.responseLine t)).1.messagePairs = m.messagePairs)
    ∧ (∀ p, m.messagePairs[m.responseTargetIndex]? = some p →
        (update now m (Msg.responseComplete s)).1.messagePairs =
          m.messagePairs.set m.responseTargetIndex
            { p with response := goTrimSpace s, duration := now - m.requestStart })
    ∧ (m.messagePairs.length ≤ m.responseTargetIndex →
        (update now m (Msg.responseComplete s)).1.messagePairs = m.messagePairs) :=
  ⟨rfl, fun p hp => finalize_in_range now m s p hp, fun hge => finalize_out_of_range now m s hge⟩

/-- C3 witness: a concrete finalize at target index 0 writes the trimmed
text "Hello" and the elapsed time 5 into the single pending turn, after a
partial event that left the store untouched. -/
theorem c3_complete_finalizes_trimmed_witness :
    (update 7
        { initialModel with
            messagePairs := [{ request := "q", response := "", duration := 0, cancelled := false }]
            requestStart := 2
            chatRequested := true }
        (Msg.responseComplete " Hello ")).1.messagePairs =
      [{ request := "q", response := "Hello", duration := 5, cancelled := false }] := by
  have h :=
    (c3_complete_finalizes_trimmed 7
        { initialModel with
            messagePairs := [{ request := "q", response := "", duration := 0, cancelled := false }]
            requestStart := 2
            chatRequested := true }
        " Hello " "x").2.1
      { request := "q", response := "", duration := 0, cancelled := false } rfl
  rw [h]
  decide

/-- The claimed validity invariant for the navigation cursor: when the turn
list is non-empty `currentPairIndex` is a valid position, and when it is empty
the cursor is 0.  (Indices are embedded as `Nat`, which carries the
non-negativity half of the claim: in the Go source the only decrement is
guarded by `> 0`, so the field never goes below zero.) -/
def IndexInvariant (m : Model) : Prop :=
  (m.messagePairs.length = 0 → m.currentPairIndex = 0) ∧
    (0 < m.messagePairs.length → m.currentPairIndex < m.messagePairs.length)

/-- Arithmetic restatement of `IndexInvariant` used to discharge the case
analysis. -/
theorem indexInvariant_iff_lt (m : Model) :
    IndexInvariant m ↔ m.currentPairIndex < max 1 m.messagePairs.length := by
  constructor
  · rintro ⟨h0, h1⟩
    rcases Nat.eq_zero_or_pos m.messagePairs.length with hl | hl
    · have := h0 hl
      omega
    · have := h1 hl
      omega
  · intro h
    constructor
    · intro hl
      omega
    · intro hl
      omega

/-- C10: every event processed by the update function preserves the cursor
validity invariant: navigation is guarded at the first and last turn,
submission points the cursor at the appended turn, and reset returns it
to 0. -/
theorem c10_update_preserves_index_invariant (now : Nat) (m : Model) (msg : Msg)
    (h : IndexInvariant m) : IndexInvariant (update now m msg).1 := by
  rw [indexInvariant_iff_lt] at h
  rw [indexInvariant_iff_lt]
  cases msg with
  | focusGained => exact h
  | focusLost => exact h
  | keyCtrlC =>
    simp only [update]
    split_ifs with hw hg <;> simp_all
  | keyEsc =>
    simp only [update]
    split_ifs <;> exact h
  | keyRune c =>
    simp only [update]
    split_ifs <;> simp_all <;> omega
  | keyEnter =>
    simp only [update]
    split_ifs <;> simp_all [List.length_append]
  | tick =>
    simp only [update]
    split_ifs <;> exact h
  | responseLine s => exact h
  | responseComplete s =>
    simp only [update]
    split_ifs with hg <;> simp_all
  | modelSelected name => exact h
  | modelLoaded name => exact h
  | modelStatus loaded =>
    simp only [update]
    split_ifs <;> exact h
  | setSendFunc => exact h
  | errorEvent e => exact h
  | windowSize w hh => exact h

/-- C10 witness: the invariant holds when it holds before, at a concrete
submission event appending to a one-turn session. -/
theorem c10_update_preserves_index_invariant_witness :
    IndexInvariant
        { initialModel with
            textValue := "hi"
            messagePairs := [{ request := "a", response := "A", duration := 1, cancelled := false }]
            currentPairIndex := 0 }
    ∧ IndexInvariant
        (update 0
          { initialModel with
              textValue := "hi"
              messagePairs := [{ request := "a", response := "A", duration := 1, cancelled := false }]
              currentPairIndex := 0 }
          Msg.keyEnter).1 :=
  ⟨by constructor <;> intro hx <;> simp_all,
    c10_update_preserves_index_invariant 0 _ Msg.keyEnter
      (by constructor <;> intro hx <;> simp_all)⟩

/-- A state with an active dispatch targeting turn 1 while the user has
navigated back to view turn 0 (the defining streaming-while-navigating
divergence of the two cursors). -/
def c1DivergedState : Model :=
  { initialModel with
      mode := Mode.readMode
      textFocused := false
      messagePairs :=
        [{ request := "a", response := "A", duration := 3, cancelled := false },
          { request := "b", response := "", duration := 0, cancelled := false }]
      currentPairIndex := 0
      responseTargetIndex := 1
      isWaiting := true
      chatRequested := true
      hasCancelFn := true }

/-- C1: evaluation of the interrupt command at the failing input.  With an
active dispatch targeting turn 1 and `currentPairIndex = 0`, Ctrl+C marks
turn 0 — the *viewed* pair — cancelled and leaves the dispatch target turn 1
unmarked, contradicting the claim that the turn at `targetIndex` is marked
regardless of `currentIndex`.  The command-side halves of the claim do hold:
the returned command is not `quit` while a dispatch is active, and is `quit`
when none is. -/
theorem c1_interrupt_marks_viewed_not_target :
    (c1DivergedState.currentPairIndex = 0 ∧ c1DivergedState.responseTargetIndex = 1)
    ∧ ((update 0 c1DivergedState Msg.keyCtrlC).1.messagePairs =
        [{ request := "a", response := "A", duration := 3, cancelled := true },
          { request := "b", response := "", duration := 0, cancelled := false }])
    ∧ ((update 0 c1DivergedState Msg.keyCtrlC).2 = Cmd.none)
    ∧ ((update 0 initialModel Msg.keyCtrlC).2 = Cmd.quit) :=
  ⟨⟨rfl, rfl⟩, by decide, rfl, rfl⟩

/-- A state mid-dispatch (submitted, model loaded, waiting on the stream),
about to receive a connection-failure event. -/
def c2MidDispatch : Model :=
  { initialModel with
      mode := Mode.readMode
      textFocused := false
      messagePairs := [{ request := "hi", response := "", duration := 0, cancelled := false }]
      currentPairIndex := 0
      responseTargetIndex := 0
      isWaiting := true
      chatRequested := true
      hasCancelFn := true }

/-- The state after the dispatch resolves with a `Failure` event. -/
def c2AfterFailure : Model :=
  (update 9 c2MidDispatch (dispatchFailure "connection refused")).1

/-- C2: evaluation at the failing input.  A `Failure` event does surface the
error, does not terminate the process, and leaves the mode in Review — but it
clears only `IsWaiting`, not `ChatRequested`, so the dispatch-active guard
still fires and a subsequent enter-compose 'i' is rejected (state unchanged,
mode still Review), contradicting the claim that compose becomes reachable
once the dispatch failed. -/
theorem c2_failure_keeps_compose_blocked :
    (c2AfterFailure.err = some "connection refused")
    ∧ ((update 9 c2MidDispatch (dispatchFailure "connection refused")).2 = Cmd.none)
    ∧ (c2AfterFailure.mode = Mode.readMode)
    ∧ (c2AfterFailure.isWaiting = false)
    ∧ (c2AfterFailure.chatRequested = true)
    ∧ ((update 10 c2AfterFailure (Msg.keyRune 'i')).1 = c2AfterFailure)
    ∧ ((update 10 c2AfterFailure (Msg.keyRune 'i')).1.mode ≠ Mode.promptMode) :=
  ⟨rfl, rfl, rfl, rfl, rfl, rfl, by decide⟩

/-- A single pending turn whose dispatch has accumulated the partial text
"Hel" when the user cancels. -/
def c4PendingState : Model :=
  { initialModel with
      mode := Mode.readMode
      textFocused := false
      messagePairs := [{ request := "q", response := "", duration := 0, cancelled := false }]
      currentPairIndex := 0
      responseTargetIndex := 0
      requestStart := 2
      isWaiting := true
      chatRequested := true
      hasCancelFn := true }

/-- The state right after Ctrl+C, before the abandoned dispatch resolves. -/
def c4AfterCancel : Model := (update 4 c4PendingState Msg.keyCtrlC).1

/-- C4 counterexample: cancelling with accumulated partial text "Hel" marks
the turn cancelled and leaves its response empty — but when the cancelled
dispatch resolves (the `ctx.Done()` branch returns `Complete` carrying the
accumulator), the stored response becomes "Hel", not the empty string the
claim requires. -/
theorem c4_partial_text_retained_cex :
    (c4AfterCancel.messagePairs.map (fun p => p.response) = [""])
    ∧ (c4AfterCancel.messagePairs.map (fun p => p.cancelled) = [true])
    ∧ ((update 6 c4AfterCancel (dispatchCancelResolve "Hel")).1.messagePairs.map
          (fun p => p.response) = ["Hel"])
    ∧ (("Hel" : String) ≠ "") := by
  decide

/-- C4 (amended): cancellation itself never alters any stored response text,
and when the cancelled dispatch resolves through the completion path the
accumulated partial text is *retained*: the trimmed accumulator is written
into the turn at `targetIndex` (so the stored response is empty only if
nothing had accumulated). -/
theorem c4_cancel_keeps_responses_resolve_retains (now now2 : Nat) (m : Model)
    (acc : String) (p : MessagePair)
    (hactive : (m.isWaiting || m.chatRequested) = true)
    (hp : ((update now m Msg.keyCtrlC).1.messagePairs)[m.responseTargetIndex]? = some p) :
    ((update now m Msg.keyCtrlC).1.messagePairs.map (fun q => q.response) =
      m.messagePairs.map (fun q => q.response))
    ∧ ((update now2 (update now m Msg.keyCtrlC).1 (dispatchCancelResolve acc)).1.messagePairs =
        (update now m Msg.keyCtrlC).1.messagePairs.set m.responseTargetIndex
          { p with response := goTrimSpace acc, duration := now2 - m.requestStart }) := by
  constructor
  · simp only [update, hactive, if_pos]
    split_ifs with hg
    · exact modifyAt_map_response _ _ _ (fun q => rfl)
    · rfl
  · have htgt : (update now m Msg.keyCtrlC).1.responseTargetIndex = m.responseTargetIndex := by
      simp only [update, hactive, if_true]
    have hrs : (update now m Msg.keyCtrlC).1.requestStart = m.requestStart := by
      simp only [update, hactive, if_true]
    have h :=
      finalize_in_range now2 (update now m Msg.keyCtrlC).1 acc p (by rw [htgt]; exact hp)
    simp only [dispatchCancelResolve]
    rw [h, htgt, hrs]

/-- C4 (amended) witness: concrete cancellation of the pending turn keeps
the response projection, and the resolution writes the accumulated "Hel"
into it. -/
theorem c4_cancel_keeps_responses_resolve_retains_witness :
    ((update 4 c4PendingState Msg.keyCtrlC).1.messagePairs.map (fun q => q.response) =
      c4PendingState.messagePairs.map (fun q => q.response))
    ∧ ((update 6 (update 4 c4PendingState Msg.keyCtrlC).1
          (dispatchCancelResolve "Hel")).1.messagePairs =
        (update 4 c4PendingState Msg.keyCtrlC).1.messagePairs.set 0
          { request := "q", response := goTrimSpace "Hel", duration := 6 - 2,
            cancelled := true }) :=
  c4_cancel_keeps_responses_resolve_retains 4 6 c4PendingState "Hel"
    { request := "q", response := "", duration := 0, cancelled := true } rfl rfl

/-- A session with two turns, both cursors at 1, about to process the
"clear" command. -/
def c5TwoTurnState : Model :=
  { initialModel with
      textFocused := true
      textValue := "clear"
      messagePairs :=
        [{ request := "a", response := "A", duration := 1, cancelled := false },
          { request := "b", response := "B", duration := 2, cancelled := false }]
      currentPairIndex := 1
      responseTargetIndex := 1 }

/-- C5 counterexample: the "clear" command empties the turn list and resets
`currentPairIndex` to 0, but `responseTargetIndex` keeps its old value 1 — it
is not reset to zero as the claim states. -/
theorem c5_clear_leaves_target_index_cex :
    ((update 0 c5TwoTurnState Msg.keyEnter).1.messagePairs = [])
    ∧ ((update 0 c5TwoTurnState Msg.keyEnter).1.currentPairIndex = 0)
    ∧ ((update 0 c5TwoTurnState Msg.keyEnter).1.responseTargetIndex = 1)
    ∧ ((1 : Nat) ≠ 0) := by
  decide

/-- C5 (amended): for every session state, the "clear" command removes all
turns and resets `currentPairIndex` to 0; `responseTargetIndex` is left at
its previous value (stale values are harmless because finalize bounds-checks
against the turn count). -/
theorem c5_clear_resets_turns_and_cursor (now : Nat) (m : Model)
    (hf : m.textFocused = true) (hc : goTrimSpace m.textValue = "clear") :
    ((update now m Msg.keyEnter).1.messagePairs = [])
    ∧ ((update now m Msg.keyEnter).1.currentPairIndex = 0)
    ∧ ((update now m Msg.keyEnter).1.responseTargetIndex = m.responseTargetIndex) := by
  simp [update, hf, hc]

/-- C5 (amended) witness: clearing a concrete two-turn session with target
cursor 1. -/
theorem c5_clear_resets_turns_and_cursor_witness :
    ((update 0 c5TwoTurnState Msg.keyEnter).1.messagePairs = [])
    ∧ ((update 0 c5TwoTurnState Msg.keyEnter).1.currentPairIndex = 0)
    ∧ ((update 0 c5TwoTurnState Msg.keyEnter).1.responseTargetIndex =
        c5TwoTurnState.responseTargetIndex) :=
  c5_clear_resets_turns_and_cursor 0 c5TwoTurnState rfl (by decide)

/-- A one-turn session whose composed input is the word "clear". -/
def c6CommandInputState : Model :=
  { initialModel with
      textFocused := true
      textValue := "clear"
      messagePairs := [{ request := "old", response := "O", duration := 1, cancelled := false }] }

/-- C6 counterexample: "clear" is non-empty after trimming, yet pressing
Enter on it appends no turn (the turn count drops to 0 instead of growing to
2): the claim's "every input non-empty after trimming" is too broad, because
the Enter handler first interprets the command words. -/
theorem c6_command_words_not_submitted_cex :
    (goTrimSpace "clear" ≠ "")
    ∧ (c6CommandInputState.messagePairs.length = 1)
    ∧ ((update 0 c6CommandInputState Msg.keyEnter).1.messagePairs.length = 0) := by
  decide

/-- C6 (amended): for every input non-empty after trimming *other than the
command words "clear", "exit" and "quit"* (which the spec maps to the
separate reset-session and terminate commands), Enter appends a new turn
whose request is the trimmed input, points both cursors at it and forces
Review mode; for every input empty after trimming the submission is rejected
with no state change at all. -/
theorem c6_submit_appends_and_targets (now : Nat) (m : Model)
    (hf : m.textFocused = true) :
    (goTrimSpace m.textValue ≠ "" → goTrimSpace m.textValue ≠ "clear" →
      goTrimSpace m.textValue ≠ "exit" → goTrimSpace m.textValue ≠ "quit" →
      ((update now m Msg.keyEnter).1.messagePairs =
        m.messagePairs ++
          [{ request := goTrimSpace m.textValue, response := "", duration := 0,
              cancelled := false }])
      ∧ ((update now m Msg.keyEnter).1.currentPairIndex = m.messagePairs.length)
      ∧ ((update now m Msg.keyEnter).1.responseTargetIndex = m.messagePairs.length)
      ∧ ((update now m Msg.keyEnter).1.mode = Mode.readMode))
    ∧ (goTrimSpace m.textValue = "" → update now m Msg.keyEnter = (m, Cmd.none)) := by
  constructor
  · intro h1 h2 h3 h4
    simp [update, hf, h1, h2, h3, h4, List.length_append]
  · intro h0
    simp [update, hf, h0]

/-- C6 (amended) witness: entering " hi " appends a turn with request "hi",
points both cursors at it and forces Review mode; an all-whitespace input is
rejected unchanged. -/
theorem c6_submit_appends_and_targets_witness :
    (((update 0 { initialModel with textValue := " hi " } Msg.keyEnter).1.messagePairs =
        [{ request := "hi", response := "", duration := 0, cancelled := false }])
      ∧ ((update 0 { initialModel with textValue := " hi " } Msg.keyEnter).1.currentPairIndex = 0)
      ∧ ((update 0 { initialModel with textValue := " hi " } Msg.keyEnter).1.responseTargetIndex = 0)
      ∧ ((update 0 { initialModel with textValue := " hi " } Msg.keyEnter).1.mode = Mode.readMode))
    ∧ (update 0 { initialModel with textValue := "   " } Msg.keyEnter =
        ({ initialModel with textValue := "   " }, Cmd.none)) := by
  have ha :=
    (c6_submit_appends_and_targets 0 { initialModel with textValue := " hi " } rfl).1
      (by decide) (by decide) (by decide) (by decide)
  have hb :=
    (c6_submit_appends_and_targets 0 { initialModel with textValue := "   " } rfl).2 (by decide)
  refine ⟨⟨?_, ?_, ?_, ?_⟩, hb⟩
  · rw [ha.1]
    decide
  · rw [ha.2.1]
    decide
  · rw [ha.2.2.1]
    decide
  · exact ha.2.2.2

/-! ### Streaming accumulator lemmas -/

/-- The stream loop emits exactly one partial per chunk. -/
theorem streamLoop_length (a : String) (chunks : List String) :
    (streamLoop a chunks).length = chunks.length := by
  induction chunks generalizing a with
  | nil => rfl
  | cons c rest ih => simp [streamLoop, ih]

/-- Folding the guarded append from an arbitrary accumulator prepends that
accumulator to the text accumulated from the empty one. -/
theorem foldl_guarded_append (a : String) (l : List String) :
    l.foldl (fun acc c => if c ≠ "" then acc ++ c else acc) a = a ++ accumulate l := by
  induction l generalizing a with
  | nil => simp [accumulate, String.append_empty]
  | cons c rest ih =>
    simp only [List.foldl_cons, accumulate] at *
    rw [ih, ih (if c ≠ "" then "" ++ c else "")]
    by_cases hc : c = ""
    · simp [hc, String.append_empty]
    · simp [hc, String.empty_append, String.append_assoc]

/-- The accumulator distributes over list concatenation. -/
theorem accumulate_append (l1 l2 : List String) :
    accumulate (l1 ++ l2) = accumulate l1 ++ accumulate l2 := by
  unfold accumulate
  rw [List.foldl_append]
  exact foldl_guarded_append _ l2

/-- One step of the guarded append agrees with accumulating the single
chunk. -/
theorem guard_append_eq (a c : String) :
    (if c ≠ "" then a ++ c else a) = a ++ accumulate [c] := by
  by_cases hc : c = ""
  · simp [hc, accumulate, String.append_empty]
  · simp [hc, accumulate, String.empty_append]

/-- Each payload the stream loop sends is the starting accumulator followed
by the accumulation of the chunks consumed so far. -/
theorem streamLoop_get (chunks : List String) :
    ∀ (a : String) (k : Nat) (h : k < (streamLoop a chunks).length),
      (streamLoop a chunks).get ⟨k, h⟩ = a ++ accumulate (chunks.take (k + 1)) := by
  induction chunks with
  | nil =>
    intro a k h
    simp [streamLoop] at h
  | cons c rest ih =>
    intro a k h
    cases k with
    | zero =>
      show (if c ≠ "" then a ++ c else a) = a ++ accumulate ((c :: rest).take 1)
      simp only [List.take_succ_cons, List.take_zero]
      exact guard_append_eq a c
    | succ n =>
      have hn : n < (streamLoop (if c ≠ "" then a ++ c else a) rest).length := by
        have := h
        simp only [streamLoop, List.length_cons] at this
        omega
      show (streamLoop (if c ≠ "" then a ++ c else a) rest).get ⟨n, hn⟩ =
        a ++ accumulate ((c :: rest).take (n + 2))
      rw [ih _ n hn, guard_append_eq a c]
      have hsplit : accumulate (c :: rest.take (n + 1)) =
          accumulate [c] ++ accumulate (rest.take (n + 1)) := accumulate_append [c] _
      simp only [List.take_succ_cons, hsplit, String.append_assoc]

/-- C9: for every chunk sequence of a single dispatch, every emitted partial
event carries the full accumulated text so far (the accumulation of the
chunks consumed up to that event, not just the delta); consequently the
payload sequence is prefix-ordered with non-decreasing length, so a receiver
keeping only the latest partial holds the correct accumulated state. -/
theorem c9_partials_carry_full_accumulation (chunks : List String) (i j : Nat)
    (hi : i < (emittedPartials chunks).length)
    (hj : j < (emittedPartials chunks).length) (hij : i ≤ j) :
    ((emittedPartials chunks).get ⟨i, hi⟩ = accumulate (chunks.take (i + 1)))
    ∧ (∃ t, (emittedPartials chunks).get ⟨i, hi⟩ ++ t = (emittedPartials chunks).get ⟨j, hj⟩)
    ∧ (((emittedPartials chunks).get ⟨i, hi⟩).length ≤
        ((emittedPartials chunks).get ⟨j, hj⟩).length) := by
  have gi : (emittedPartials chunks).get ⟨i, hi⟩ = accumulate (chunks.take (i + 1)) := by
    have := streamLoop_get chunks "" i hi
    rwa [String.empty_append] at this
  have gj : (emittedPartials chunks).get ⟨j, hj⟩ = accumulate (chunks.take (j + 1)) := by
    have := streamLoop_get chunks "" j hj
    rwa [String.empty_append] at this
  have htake : chunks.take (i + 1) ++ (chunks.take (j + 1)).drop (i + 1) =
      chunks.take (j + 1) := by
    have h1 : (chunks.take (j + 1)).take (i + 1) = chunks.take (i + 1) := by
      rw [List.take_take]
      congr 1
      omega
    calc chunks.take (i + 1) ++ (chunks.take (j + 1)).drop (i + 1)
        = (chunks.take (j + 1)).take (i + 1) ++ (chunks.take (j + 1)).drop (i + 1) := by
          rw [h1]
      _ = chunks.take (j + 1) := List.take_append_drop _ _
  have hpre : ∃ t, (emittedPartials chunks).get ⟨i, hi⟩ ++ t =
      (emittedPartials chunks).get ⟨j, hj⟩ := by
    refine ⟨accumulate ((chunks.take (j + 1)).drop (i + 1)), ?_⟩
    rw [gi, gj, ← htake, accumulate_append, htake]
  refine ⟨gi, hpre, ?_⟩
  obtain ⟨t, ht⟩ := hpre
  rw [← ht, String.length_append]
  omega

/-- C9 witness: for the chunk sequence ["He", "", "llo"] the first partial
carries "He" (the full accumulation after one chunk) and its length does not
exceed that of the last partial. -/
theorem c9_partials_carry_full_accumulation_witness :
    ((emittedPartials ["He", "", "llo"]).get ⟨0, by decide⟩ =
      accumulate (["He", "", "llo"].take 1))
    ∧ (((emittedPartials ["He", "", "llo"]).get ⟨0, by decide⟩).length ≤
        ((emittedPartials ["He", "", "llo"]).get ⟨2, by decide⟩).length) :=
  ⟨(c9_partials_carry_full_accumulation ["He", "", "llo"] 0 2 (by decide) (by decide)
      (by decide)).1,
    (c9_partials_carry_full_accumulation ["He", "", "llo"] 0 2 (by decide) (by decide)
      (by decide)).2.2⟩

end Tama
